import Mathlib

/-!
Verification of the layer-store state model and the generation-relay endpoint
of the manga-creator editor.

The store (from `src/app/page.tsx`) keeps an ordered list of layers and an
optional selected layer id, with five operations: `addLayer`, `updateLayer`,
`selectLayer`, `reorderLayers`, `deleteSelectedLayer`.  The relay
(from `src/app/api/generate-image/route.ts`) checks a provider API key and
forwards a prompt and size to the provider.
-/

/-- The variant tag of a layer: `'image' | 'text'` in the source. -/
inductive LayerType where
  | image
  | text
deriving DecidableEq, Repr

/-- The `Layer` interface of `src/app/page.tsx` (lines 17-28).  JS numbers are
modelled as `Int` (the claims do no fractional arithmetic); the optional
`content` field as `Option String`. -/
structure Layer where
  id : Int
  type : LayerType
  src : String
  name : String
  width : Int
  height : Int
  x : Int
  y : Int
  zIndex : Int
  content : Option String
deriving DecidableEq, Repr

/-- The state held by the zustand store: the ordered layer list and the
current selection (`number | null`). -/
structure EditorState where
  layers : List Layer
  selectedLayerId : Option Int
deriving DecidableEq, Repr

/-- The store's initial state: `layers: [], selectedLayerId: null`. -/
def initialState : EditorState :=
  { layers := [], selectedLayerId := none }

/-- `addLayer: (layer) => set((state) => ({ layers: [{ ...layer, zIndex:
state.layers.length }, ...state.layers] }))` — the new layer is put at the
front with `zIndex` overridden to the previous length; the selection field is
untouched by the partial set. -/
def addLayer (layer : Layer) (st : EditorState) : EditorState :=
  { st with layers := { layer with zIndex := (st.layers.length : Int) } :: st.layers }

/-- A `Partial<Layer>` patch: each field optionally present.  A field that is
present in the patch overwrites the layer's field on spread merge.  The
optional `content` field can itself be patched to a present or absent value,
hence `Option (Option String)`. -/
structure LayerPatch where
  id : Option Int := none
  type : Option LayerType := none
  src : Option String := none
  name : Option String := none
  width : Option Int := none
  height : Option Int := none
  x : Option Int := none
  y : Option Int := none
  zIndex : Option Int := none
  content : Option (Option String) := none
deriving DecidableEq, Repr

/-- The spread merge `{ ...layer, ...updates }`: fields named in the patch
overwrite, all other fields are taken from `layer`. -/
def applyPatch (updates : LayerPatch) (l : Layer) : Layer :=
  { id := updates.id.getD l.id
    type := updates.type.getD l.type
    src := updates.src.getD l.src
    name := updates.name.getD l.name
    width := updates.width.getD l.width
    height := updates.height.getD l.height
    x := updates.x.getD l.x
    y := updates.y.getD l.y
    zIndex := updates.zIndex.getD l.zIndex
    content := updates.content.getD l.content }

/-- `updateLayer: (id, updates) => set((state) => ({ layers: state.layers.map(
(layer) => layer.id === id ? { ...layer, ...updates } : layer) }))`. -/
def updateLayer (id : Int) (updates : LayerPatch) (st : EditorState) : EditorState :=
  { st with layers := st.layers.map (fun l => if l.id = id then applyPatch updates l else l) }

/-- `selectLayer: (id) => set({ selectedLayerId: id })`: unconditional,
no validation of the id. -/
def selectLayer (id : Option Int) (st : EditorState) : EditorState :=
  { st with selectedLayerId := id }

/-- The splice pair of `reorderLayers`: remove the element at `startIndex`,
reinsert it at `endIndex`.  JS `splice(endIndex, 0, item)` clamps the insert
position to the list length, hence the `min`.  An out-of-range `startIndex`
(JS would splice out nothing and insert `undefined`, which a `Layer[]` cannot
represent) is undefined behaviour per the spec and modelled as the identity;
every claim about reordering restricts to in-range indices. -/
def moveItem (ls : List Layer) (startIndex endIndex : Nat) : List Layer :=
  match ls[startIndex]? with
  | some item => (ls.eraseIdx startIndex).insertIdx
      (min endIndex (ls.eraseIdx startIndex).length) item
  | none => ls

/-- The unconditional recomputation `newLayers.map((layer, index) =>
({ ...layer, zIndex: newLayers.length - 1 - index }))`. -/
def renumber (ls : List Layer) : List Layer :=
  ls.mapIdx (fun k l => { l with zIndex := (ls.length : Int) - 1 - (k : Int) })

/-- `reorderLayers` from `src/app/page.tsx` lines 52-59: splice-move the item,
then recompute every `zIndex` as `length - 1 - index`. -/
def reorderLayers (startIndex endIndex : Nat) (st : EditorState) : EditorState :=
  { st with layers := renumber (moveItem st.layers startIndex endIndex) }

/-- `deleteSelectedLayer: () => set((state) => ({ layers: state.layers.filter(
(layer) => layer.id !== state.selectedLayerId), selectedLayerId: null }))`.
With a `null` selection the strict inequality holds for every layer, so
nothing is removed. -/
def deleteSelectedLayer (st : EditorState) : EditorState :=
  { layers := st.layers.filter (fun l => decide (some l.id ≠ st.selectedLayerId))
    selectedLayerId := none }

/-- Erase the `zIndex` field, for frame statements comparing layers up to
their stacking rank. -/
def stripZ (l : Layer) : Layer :=
  { l with zIndex := 0 }

/-- One transition of the store, as the claims read it: any of the five
operations, with `addLayer`'s caller-guaranteed fresh id, and in-range
indices for `reorderLayers` (out of range is undefined behaviour in the
source). -/
inductive Step : EditorState → EditorState → Prop where
  | add (layer : Layer) (st : EditorState)
      (hfresh : ∀ l ∈ st.layers, l.id ≠ layer.id) :
      Step st (addLayer layer st)
  | update (id : Int) (updates : LayerPatch) (st : EditorState) :
      Step st (updateLayer id updates st)
  | select (id : Option Int) (st : EditorState) :
      Step st (selectLayer id st)
  | reorder (startIndex endIndex : Nat) (st : EditorState)
      (hs : startIndex < st.layers.length) (he : endIndex < st.layers.length) :
      Step st (reorderLayers startIndex endIndex st)
  | delete (st : EditorState) :
      Step st (deleteSelectedLayer st)

/-- States reachable from the empty store by sequences of the five
operations. -/
def Reachable (st : EditorState) : Prop :=
  Relation.ReflTransGen Step initialState st

/-- A concrete image layer used for witnesses and counterexamples, shaped like
the layers the page constructs after a generation call. -/
def mkLayer (i : Int) : Layer :=
  { id := i
    type := LayerType.image
    src := "https://v3.fal.media/files/sample.png"
    name := "Generated Image"
    width := 200
    height := 200
    x := 0
    y := 0
    zIndex := 0
    content := none }

/-- A two-layer state built by two `addLayer` calls on the empty store. -/
def twoLayerState : EditorState :=
  addLayer (mkLayer 2) (addLayer (mkLayer 1) initialState)

/- ### Generation relay (`src/app/api/generate-image/route.ts`) -/

/-- One outbound HTTP call made by the relay to the provider. -/
structure OutboundCall where
  url : String
  authorization : String
  prompt : String
  image_size : String
deriving DecidableEq, Repr

/-- The JSON body of the relay's response: either the literal error object
`{ error: msg }` or the provider's data passed through unmodified. -/
inductive ResponseBody where
  | errorMsg (msg : String)
  | passthrough (data : String)
deriving DecidableEq, Repr

/-- The observable outcome of one `POST` request: the outbound calls made and
the response returned. -/
structure RelayResult where
  calls : List OutboundCall
  body : ResponseBody
  status : Nat
deriving DecidableEq, Repr

/-- The `POST` handler: reads `process.env.FAL_AI_API_KEY` (modelled as
`Option String`, `none` for an unset variable), and guards with `if (!apiKey)`
— which in JS is also taken for a present-but-empty string.  On a falsy key it
responds `{ error: 'API key not found' }` with status 500 and makes no call;
otherwise it makes exactly one call to the provider with `Authorization:
Key <apiKey>` and body `{ prompt, image_size: size }`, and returns the
provider's data with the default 200 status.  The provider is an external
collaborator, modelled as a function from the call to its response data. -/
def POST (apiKey : Option String) (prompt size : String)
    (provider : OutboundCall → String) : RelayResult :=
  match apiKey with
  | none => { calls := [], body := ResponseBody.errorMsg "API key not found", status := 500 }
  | some k =>
    if k = "" then
      { calls := [], body := ResponseBody.errorMsg "API key not found", status := 500 }
    else
      let call : OutboundCall :=
        { url := "https://fal.run/fal-ai/fast-lightning-sdxl"
          authorization := "Key " ++ k
          prompt := prompt
          image_size := size }
      { calls := [call], body := ResponseBody.passthrough (provider call), status := 200 }

/- ### Theorems -/

/-- C3: for every state and fresh layer, `addLayer` puts the layer at the
front with `zIndex` equal to the previous collection size, leaves every
existing layer (the whole tail) unchanged, grows the collection by one, and
leaves the selection unchanged. -/
theorem addLayer_front_spec (layer : Layer) (st : EditorState)
    (hfresh : ∀ l ∈ st.layers, l.id ≠ layer.id) :
    (addLayer layer st).layers.length = st.layers.length + 1 ∧
    (addLayer layer st).layers.head? =
      some { layer with zIndex := (st.layers.length : Int) } ∧
    (addLayer layer st).layers.tail = st.layers ∧
    (addLayer layer st).selectedLayerId = st.selectedLayerId := by
  refine ⟨?_, rfl, rfl, rfl⟩
  simp [addLayer]

/-- Witness for C3 at a concrete fresh layer and concrete state. -/
theorem addLayer_front_spec_witness :
    (addLayer (mkLayer 3) twoLayerState).layers.length = twoLayerState.layers.length + 1 ∧
    (addLayer (mkLayer 3) twoLayerState).layers.head? =
      some { mkLayer 3 with zIndex := (twoLayerState.layers.length : Int) } ∧
    (addLayer (mkLayer 3) twoLayerState).layers.tail = twoLayerState.layers ∧
    (addLayer (mkLayer 3) twoLayerState).selectedLayerId = twoLayerState.selectedLayerId :=
  addLayer_front_spec (mkLayer 3) twoLayerState (by decide)

/-- C4: `deleteSelectedLayer` always clears the selection to `null`; with a
`null` selection, or a selection matching no layer, the collection is
unchanged; with a matching selection, exactly the layers whose id differs from
the selection survive. -/
theorem deleteSelectedLayer_spec (st : EditorState) :
    (deleteSelectedLayer st).selectedLayerId = none ∧
    (st.selectedLayerId = none → (deleteSelectedLayer st).layers = st.layers) ∧
    (∀ n : Int, st.selectedLayerId = some n → (∀ l ∈ st.layers, l.id ≠ n) →
      (deleteSelectedLayer st).layers = st.layers) ∧
    (∀ n : Int, st.selectedLayerId = some n → ∀ l : Layer,
      (l ∈ (deleteSelectedLayer st).layers ↔ l ∈ st.layers ∧ l.id ≠ n)) := by
  refine ⟨rfl, ?_, ?_, ?_⟩
  · intro h
    apply List.filter_eq_self.mpr
    intro l _
    simp [h]
  · intro n hsel habs
    apply List.filter_eq_self.mpr
    intro l hl
    simp [hsel, habs l hl]
  · intro n hsel l
    simp [deleteSelectedLayer, List.mem_filter, hsel]

/-- Witness for C4: deleting with selection 1 in a concrete two-layer state
clears the selection, and the layer with id 2 survives while none with id 1
does. -/
theorem deleteSelectedLayer_spec_witness :
    (deleteSelectedLayer (selectLayer (some 1) twoLayerState)).selectedLayerId = none ∧
    ({ mkLayer 2 with zIndex := 1 } ∈
      (deleteSelectedLayer (selectLayer (some 1) twoLayerState)).layers ↔
      { mkLayer 2 with zIndex := 1 } ∈ (selectLayer (some 1) twoLayerState).layers ∧
      ({ mkLayer 2 with zIndex := 1 } : Layer).id ≠ 1) :=
  ⟨(deleteSelectedLayer_spec (selectLayer (some 1) twoLayerState)).1,
   (deleteSelectedLayer_spec (selectLayer (some 1) twoLayerState)).2.2.2 1 rfl _⟩

/-- C9: delete is a pure filter: the surviving collection is a sublist of the
old one (same relative order, every field of every survivor — `zIndex`
included — bitwise unchanged), and every layer whose id differs from the
selection survives. -/
theorem deleteSelectedLayer_frame (st : EditorState) :
    (deleteSelectedLayer st).layers.Sublist st.layers ∧
    (∀ l ∈ st.layers, some l.id ≠ st.selectedLayerId →
      l ∈ (deleteSelectedLayer st).layers) := by
  constructor
  · exact List.filter_sublist st.layers
  · intro l hl hne
    simp [deleteSelectedLayer, List.mem_filter, hl, hne]

/-- Witness for C9 at a concrete state with selection 1: sublist, and the
non-selected layer survives untouched. -/
theorem deleteSelectedLayer_frame_witness :
    (deleteSelectedLayer (selectLayer (some 1) twoLayerState)).layers.Sublist
      (selectLayer (some 1) twoLayerState).layers ∧
    { mkLayer 2 with zIndex := 1 } ∈
      (deleteSelectedLayer (selectLayer (some 1) twoLayerState)).layers :=
  ⟨(deleteSelectedLayer_frame (selectLayer (some 1) twoLayerState)).1,
   (deleteSelectedLayer_frame (selectLayer (some 1) twoLayerState)).2
     { mkLayer 2 with zIndex := 1 } (by decide) (by decide)⟩

/-- C7: when no layer has the given id, `updateLayer` is a silent no-op:
the whole state (collection and selection) is returned unchanged, and no
error is signalled (the operation is total). -/
theorem updateLayer_noop (id : Int) (updates : LayerPatch) (st : EditorState)
    (habs : ∀ l ∈ st.layers, l.id ≠ id) :
    updateLayer id updates st = st := by
  have hmap : st.layers.map (fun l => if l.id = id then applyPatch updates l else l)
      = st.layers := by
    conv_rhs => rw [show st.layers = st.layers.map (fun l => l) from (List.map_id' st.layers).symm]
    apply List.map_congr_left
    intro l hl
    simp [habs l hl]
  cases st with
  | mk layers sel => simpa [updateLayer] using hmap

/-- Witness for C7 at a concrete absent id. -/
theorem updateLayer_noop_witness :
    updateLayer 99 { x := some 10 } twoLayerState = twoLayerState :=
  updateLayer_noop 99 { x := some 10 } twoLayerState (by decide)

/-- C5: with a layer matching `id` present, `updateLayer` keeps the selection,
keeps the list length and order (position by position: the non-matching
positions are untouched, the matching positions get exactly the spread merge),
and the spread merge changes no field that the patch leaves unnamed. -/
theorem updateLayer_isolation (id : Int) (updates : LayerPatch) (st : EditorState)
    (hmem : ∃ l ∈ st.layers, l.id = id) :
    (updateLayer id updates st).selectedLayerId = st.selectedLayerId ∧
    (updateLayer id updates st).layers.length = st.layers.length ∧
    (∀ k : Nat, ∀ hk : k < st.layers.length,
      ∀ hk2 : k < (updateLayer id updates st).layers.length,
      (updateLayer id updates st).layers.get ⟨k, hk2⟩ =
        if (st.layers.get ⟨k, hk⟩).id = id
        then applyPatch updates (st.layers.get ⟨k, hk⟩)
        else st.layers.get ⟨k, hk⟩) ∧
    (∀ l : Layer,
      (updates.id = none → (applyPatch updates l).id = l.id) ∧
      (updates.type = none → (applyPatch updates l).type = l.type) ∧
      (updates.src = none → (applyPatch updates l).src = l.src) ∧
      (updates.name = none → (applyPatch updates l).name = l.name) ∧
      (updates.width = none → (applyPatch updates l).width = l.width) ∧
      (updates.height = none → (applyPatch updates l).height = l.height) ∧
      (updates.x = none → (applyPatch updates l).x = l.x) ∧
      (updates.y = none → (applyPatch updates l).y = l.y) ∧
      (updates.zIndex = none → (applyPatch updates l).zIndex = l.zIndex) ∧
      (updates.content = none → (applyPatch updates l).content = l.content)) := by
  refine ⟨rfl, by simp [updateLayer], ?_, ?_⟩
  · intro k hk hk2
    simp [updateLayer]
  · intro l
    refine ⟨?_, ?_, ?_, ?_, ?_, ?_, ?_, ?_, ?_, ?_⟩ <;>
      · intro h
        simp [applyPatch, h]

/-- Witness for C5: patching `x` on layer 1 in a concrete state keeps the
selection and the length. -/
theorem updateLayer_isolation_witness :
    (updateLayer 1 { x := some 10 } twoLayerState).selectedLayerId =
      twoLayerState.selectedLayerId ∧
    (updateLayer 1 { x := some 10 } twoLayerState).layers.length =
      twoLayerState.layers.length :=
  ⟨(updateLayer_isolation 1 { x := some 10 } twoLayerState
      ⟨{ mkLayer 1 with zIndex := 0 }, by decide, by decide⟩).1,
   (updateLayer_isolation 1 { x := some 10 } twoLayerState
      ⟨{ mkLayer 1 with zIndex := 0 }, by decide, by decide⟩).2.1⟩

/- ### Reorder lemmas -/

/-- Length of `renumber`. -/
theorem length_renumber (ls : List Layer) : (renumber ls).length = ls.length := by
  simp [renumber]

/-- Elementwise description of `renumber`: position `k` keeps the layer and
gets `zIndex = length - 1 - k`. -/
theorem getElem_renumber (ls : List Layer) (k : Nat) (hk : k < ls.length)
    (hk2 : k < (renumber ls).length) :
    (renumber ls).get ⟨k, hk2⟩ =
      { ls.get ⟨k, hk⟩ with zIndex := (ls.length : Int) - 1 - (k : Int) } := by
  simp [renumber]

/-- `renumber` changes only `zIndex`: stripped of that field it is the
identity. -/
theorem map_stripZ_renumber (ls : List Layer) :
    (renumber ls).map stripZ = ls.map stripZ := by
  apply List.ext_getElem (by simp [length_renumber])
  intro k h1 h2
  simp [renumber, stripZ]

/-- `renumber` keeps every id in place. -/
theorem map_id_renumber (ls : List Layer) :
    (renumber ls).map Layer.id = ls.map Layer.id := by
  apply List.ext_getElem (by simp [length_renumber])
  intro k h1 h2
  simp [renumber]

/-- The `zIndex` column of `renumber` is the descending sequence
`length - 1 - k`. -/
theorem map_zIndex_renumber (ls : List Layer) :
    (renumber ls).map Layer.zIndex =
      (List.range ls.length).map (fun k : Nat => (ls.length : Int) - 1 - (k : Int)) := by
  refine List.ext_getElem ?_ ?_
  · rw [List.length_map, List.length_map, length_renumber, List.length_range]
  · intro k h1 h2
    rw [List.getElem_map, List.getElem_map, List.getElem_range]
    simp [renumber]

/-- With in-range indices the splice pair is erase-then-insert at the given
positions (the JS clamp collapses). -/
theorem moveItem_eq_of_lt (ls : List Layer) (startIndex endIndex : Nat)
    (hs : startIndex < ls.length) (he : endIndex < ls.length) :
    ∀ x, ls.get? startIndex = some x →
      moveItem ls startIndex endIndex = (ls.eraseIdx startIndex).insertIdx endIndex x := by
  intro x hx
  have hlen : (ls.eraseIdx startIndex).length = ls.length - 1 :=
    List.length_eraseIdx_of_lt hs
  have hmin : min endIndex (ls.eraseIdx startIndex).length = endIndex := by
    rw [hlen]; omega
  simp only [moveItem, ← List.get?_eq_getElem?, hx, hmin]

/-- Length of the splice pair at in-range indices. -/
theorem length_moveItem (ls : List Layer) (startIndex endIndex : Nat)
    (hs : startIndex < ls.length) (he : endIndex < ls.length) :
    (moveItem ls startIndex endIndex).length = ls.length := by
  have hx : ls.get? startIndex = some (ls.get ⟨startIndex, hs⟩) := by
    simp
  rw [moveItem_eq_of_lt ls startIndex endIndex hs he _ hx]
  have hlen : (ls.eraseIdx startIndex).length = ls.length - 1 :=
    List.length_eraseIdx_of_lt hs
  rw [List.length_insertIdx _ _ (by omega)]
  omega

/-- Inserting at a position within the list is a permutation of consing. -/
theorem insertIdx_perm_cons {α : Type} (a : α) :
    ∀ (n : Nat) (l : List α), n ≤ l.length → (l.insertIdx n a).Perm (a :: l)
  | 0, l, _ => List.Perm.refl _
  | n + 1, [], h => absurd h (by simp)
  | n + 1, b :: l, h => by
    simp only [List.insertIdx_succ_cons]
    exact ((insertIdx_perm_cons a n l (by simpa using h)).cons b).trans
      (List.Perm.swap a b l)

/-- A list is a permutation of its element at `i` consed onto the list with
position `i` erased. -/
theorem perm_get_cons_eraseIdx {α : Type} (l : List α) (i : Nat) (h : i < l.length) :
    l.Perm (l.get ⟨i, h⟩ :: l.eraseIdx i) := by
  have h1 : l = l.take i ++ l.get ⟨i, h⟩ :: l.drop (i + 1) := by
    rw [List.get_eq_getElem, List.getElem_cons_drop l i h, List.take_append_drop]
  rw [List.eraseIdx_eq_take_drop_succ]
  conv_lhs => rw [h1]
  exact List.perm_middle

/-- The splice pair at in-range indices permutes the list. -/
theorem moveItem_perm (ls : List Layer) (startIndex endIndex : Nat)
    (hs : startIndex < ls.length) (he : endIndex < ls.length) :
    (moveItem ls startIndex endIndex).Perm ls := by
  have hx : ls.get? startIndex = some (ls.get ⟨startIndex, hs⟩) := by
    simp
  rw [moveItem_eq_of_lt ls startIndex endIndex hs he _ hx]
  have hlen : (ls.eraseIdx startIndex).length = ls.length - 1 :=
    List.length_eraseIdx_of_lt hs
  have h1 : ((ls.eraseIdx startIndex).insertIdx endIndex (ls.get ⟨startIndex, hs⟩)).Perm
      (ls.get ⟨startIndex, hs⟩ :: ls.eraseIdx startIndex) :=
    insertIdx_perm_cons _ endIndex _ (by omega)
  exact h1.trans (perm_get_cons_eraseIdx ls startIndex hs).symm

/-- C2: with in-range indices on a collection of size `N`, `reorderLayers`
produces (up to the recomputed `zIndex` column) exactly the erase-then-insert
move of the item from `startIndex` to `endIndex`, keeps the size, and gives
the layer at every position `k` the stack order `N - 1 - k`. -/
theorem reorderLayers_inverse_rank (startIndex endIndex : Nat) (st : EditorState)
    (hs : startIndex < st.layers.length) (he : endIndex < st.layers.length) :
    (∀ x, st.layers.get? startIndex = some x →
      (reorderLayers startIndex endIndex st).layers.map stripZ =
        ((st.layers.eraseIdx startIndex).insertIdx endIndex x).map stripZ) ∧
    (reorderLayers startIndex endIndex st).layers.length = st.layers.length ∧
    (∀ k : Nat, ∀ hk : k < (reorderLayers startIndex endIndex st).layers.length,
      ((reorderLayers startIndex endIndex st).layers.get ⟨k, hk⟩).zIndex =
        (st.layers.length : Int) - 1 - (k : Int)) := by
  have hlen : (moveItem st.layers startIndex endIndex).length = st.layers.length :=
    length_moveItem st.layers startIndex endIndex hs he
  refine ⟨?_, ?_, ?_⟩
  · intro x hx
    show (renumber (moveItem st.layers startIndex endIndex)).map stripZ = _
    rw [map_stripZ_renumber, moveItem_eq_of_lt st.layers startIndex endIndex hs he x hx]
  · show (renumber (moveItem st.layers startIndex endIndex)).length = _
    rw [length_renumber, hlen]
  · intro k hk
    have hk1 : k < (moveItem st.layers startIndex endIndex).length := by
      simpa [reorderLayers, length_renumber] using hk
    have h2 : ((reorderLayers startIndex endIndex st).layers.get ⟨k, hk⟩).zIndex =
        ((moveItem st.layers startIndex endIndex).length : Int) - 1 - (k : Int) := by
      show ((renumber (moveItem st.layers startIndex endIndex)).get ⟨k, hk⟩).zIndex = _
      rw [getElem_renumber (moveItem st.layers startIndex endIndex) k hk1 hk]
    rw [h2, hlen]

/-- Witness for C2: moving position 1 to position 0 in the concrete two-layer
state keeps size 2 and gives the front layer stack order 1. -/
theorem reorderLayers_inverse_rank_witness :
    (reorderLayers 1 0 twoLayerState).layers.length = twoLayerState.layers.length ∧
    ((reorderLayers 1 0 twoLayerState).layers.get ⟨0, by decide⟩).zIndex = 1 := by
  have h := reorderLayers_inverse_rank 1 0 twoLayerState (by decide) (by decide)
  refine ⟨h.2.1, ?_⟩
  have := h.2.2 0 (by decide)
  simpa using this

/-- C10: with in-range indices, `reorderLayers` permutes the layers while
changing only their `zIndex` fields (the collection stripped of `zIndex` is a
permutation of the old one, and so is the id column: no layer is created,
duplicated, or lost), keeps the size, and leaves the selection unchanged. -/
theorem reorderLayers_frame (startIndex endIndex : Nat) (st : EditorState)
    (hs : startIndex < st.layers.length) (he : endIndex < st.layers.length) :
    (reorderLayers startIndex endIndex st).selectedLayerId = st.selectedLayerId ∧
    ((reorderLayers startIndex endIndex st).layers.map stripZ).Perm
      (st.layers.map stripZ) ∧
    ((reorderLayers startIndex endIndex st).layers.map Layer.id).Perm
      (st.layers.map Layer.id) ∧
    (reorderLayers startIndex endIndex st).layers.length = st.layers.length := by
  have hperm : (moveItem st.layers startIndex endIndex).Perm st.layers :=
    moveItem_perm st.layers startIndex endIndex hs he
  refine ⟨rfl, ?_, ?_, ?_⟩
  · show ((renumber (moveItem st.layers startIndex endIndex)).map stripZ).Perm _
    rw [map_stripZ_renumber]
    exact hperm.map stripZ
  · show ((renumber (moveItem st.layers startIndex endIndex)).map Layer.id).Perm _
    rw [map_id_renumber]
    exact hperm.map Layer.id
  · show (renumber (moveItem st.layers startIndex endIndex)).length = _
    rw [length_renumber]
    exact length_moveItem st.layers startIndex endIndex hs he

/-- Witness for C10 at the concrete two-layer state. -/
theorem reorderLayers_frame_witness :
    (reorderLayers 1 0 twoLayerState).selectedLayerId = twoLayerState.selectedLayerId ∧
    ((reorderLayers 1 0 twoLayerState).layers.map Layer.id).Perm
      (twoLayerState.layers.map Layer.id) :=
  ⟨(reorderLayers_frame 1 0 twoLayerState (by decide) (by decide)).1,
   (reorderLayers_frame 1 0 twoLayerState (by decide) (by decide)).2.2.1⟩

/- ### C1: stack-order uniqueness under sequences of operations -/

/-- The state reached from empty by: add id 1, add id 2, select 1, delete,
add id 3.  The final `addLayer` assigns `zIndex = 1` to the new layer while
the surviving layer also has `zIndex = 1`. -/
def dupZState : EditorState :=
  addLayer (mkLayer 3)
    (deleteSelectedLayer (selectLayer (some 1)
      (addLayer (mkLayer 2) (addLayer (mkLayer 1) initialState))))

/-- C1 counterexample: a state reachable from the empty store by the five
operations (with fresh ids on every add) whose `zIndex` column is `[1, 1]` —
the stack orders are not pairwise distinct.  `deleteSelectedLayer` does not
renumber, and the next `addLayer` reuses `layers.length` as the new rank. -/
theorem stackOrder_duplicate_counterexample :
    Reachable dupZState ∧
    dupZState.layers.map Layer.zIndex = [1, 1] ∧
    ¬ (dupZState.layers.map Layer.zIndex).Nodup := by
  refine ⟨?_, by decide, by decide⟩
  have s1 := Step.add (mkLayer 1) initialState (by decide)
  have s2 := Step.add (mkLayer 2) (addLayer (mkLayer 1) initialState) (by decide)
  have s3 := Step.select (some 1) (addLayer (mkLayer 2) (addLayer (mkLayer 1) initialState))
  have s4 := Step.delete (selectLayer (some 1)
    (addLayer (mkLayer 2) (addLayer (mkLayer 1) initialState)))
  have s5 := Step.add (mkLayer 3) (deleteSelectedLayer (selectLayer (some 1)
    (addLayer (mkLayer 2) (addLayer (mkLayer 1) initialState)))) (by decide)
  exact Relation.ReflTransGen.refl |>.tail s1 |>.tail s2 |>.tail s3 |>.tail s4 |>.tail s5

/-- One transition of the store restricted to the operations that do preserve
stack-order distinctness: add (fresh id), update with a patch not naming
`zIndex`, select, and in-range reorder.  (`deleteSelectedLayer` followed by an
`addLayer` breaks distinctness, see the counterexample above.) -/
inductive StepA : EditorState → EditorState → Prop where
  | add (layer : Layer) (st : EditorState)
      (hfresh : ∀ l ∈ st.layers, l.id ≠ layer.id) :
      StepA st (addLayer layer st)
  | update (id : Int) (updates : LayerPatch) (st : EditorState)
      (hz : updates.zIndex = none) :
      StepA st (updateLayer id updates st)
  | select (id : Option Int) (st : EditorState) :
      StepA st (selectLayer id st)
  | reorder (startIndex endIndex : Nat) (st : EditorState)
      (hs : startIndex < st.layers.length) (he : endIndex < st.layers.length) :
      StepA st (reorderLayers startIndex endIndex st)

/-- States reachable from the empty store without deletions and without
`zIndex`-patching updates. -/
def ReachableA (st : EditorState) : Prop :=
  Relation.ReflTransGen StepA initialState st

/-- A patch that leaves `zIndex` unnamed leaves the `zIndex` column of the
collection unchanged. -/
theorem map_zIndex_updateLayer (id : Int) (updates : LayerPatch) (st : EditorState)
    (hz : updates.zIndex = none) :
    (updateLayer id updates st).layers.map Layer.zIndex = st.layers.map Layer.zIndex := by
  show (st.layers.map _).map Layer.zIndex = _
  rw [List.map_map]
  apply List.map_congr_left
  intro l _
  by_cases hcase : l.id = id <;> simp [hcase, applyPatch, hz]

/-- The dense stack-order invariant: `zIndex` values are pairwise distinct
and all lie in `[0, length)`. -/
def ZInv (st : EditorState) : Prop :=
  (∀ z ∈ st.layers.map Layer.zIndex, 0 ≤ z ∧ z < (st.layers.length : Int)) ∧
  (st.layers.map Layer.zIndex).Nodup

/-- Every delete-free step preserves the dense stack-order invariant. -/
theorem stepA_preserves_ZInv (s t : EditorState) (hstep : StepA s t) (ih : ZInv s) :
    ZInv t := by
  obtain ⟨hb, hn⟩ := ih
  cases hstep with
  | add layer _ hfresh =>
    have hmap : (addLayer layer s).layers.map Layer.zIndex =
        (s.layers.length : Int) :: s.layers.map Layer.zIndex := rfl
    have hlen : (addLayer layer s).layers.length = s.layers.length + 1 := by
      simp [addLayer]
    constructor
    · rw [hmap, hlen]
      intro z hz
      rcases List.mem_cons.mp hz with hcase | hcase
      · subst hcase
        constructor
        · exact Int.natCast_nonneg _
        · push_cast; omega
      · have := hb z hcase
        constructor
        · exact this.1
        · push_cast; omega
    · rw [hmap]
      refine List.nodup_cons.mpr ⟨?_, hn⟩
      intro hmem
      have := (hb _ hmem).2
      omega
  | update id updates _ hz =>
    have hmap := map_zIndex_updateLayer id updates s hz
    have hlen : (updateLayer id updates s).layers.length = s.layers.length := by
      simp [updateLayer]
    exact ⟨by rw [hmap, hlen]; exact hb, by rw [hmap]; exact hn⟩
  | select id _ =>
    exact ⟨hb, hn⟩
  | reorder startIndex endIndex _ hs he =>
    have hlist : (reorderLayers startIndex endIndex s).layers.map Layer.zIndex =
        (List.range s.layers.length).map
          (fun k : Nat => (s.layers.length : Int) - 1 - (k : Int)) := by
      show (renumber (moveItem s.layers startIndex endIndex)).map Layer.zIndex = _
      rw [map_zIndex_renumber, length_moveItem s.layers startIndex endIndex hs he]
    have hlen : (reorderLayers startIndex endIndex s).layers.length =
        s.layers.length := by
      show (renumber (moveItem s.layers startIndex endIndex)).length = _
      rw [length_renumber, length_moveItem s.layers startIndex endIndex hs he]
    constructor
    · rw [hlist, hlen]
      intro z hz
      obtain ⟨k, hk, rfl⟩ := List.mem_map.mp hz
      have hk2 : k < s.layers.length := List.mem_range.mp hk
      omega
    · rw [hlist]
      refine List.Nodup.map ?_ (List.nodup_range s.layers.length)
      intro a b hab
      have hab2 : (s.layers.length : Int) - 1 - (a : Int) =
          (s.layers.length : Int) - 1 - (b : Int) := hab
      omega

/-- C1 (amended): along every sequence of `addLayer` (fresh id), `updateLayer`
with a patch not naming `zIndex`, `selectLayer`, and in-range `reorderLayers`
starting from the empty store, the `zIndex` values are pairwise distinct. -/
theorem stackOrder_nodup_of_reachableA (st : EditorState) (h : ReachableA st) :
    (st.layers.map Layer.zIndex).Nodup := by
  suffices hinv : ZInv st from hinv.2
  induction h with
  | refl => exact ⟨by simp [initialState], by simp [initialState]⟩
  | tail hsteps hstep ih => exact stepA_preserves_ZInv _ _ hstep ih

/-- Witness for the amended C1: a concrete add-add-reorder run has pairwise
distinct stack orders. -/
theorem stackOrder_nodup_witness :
    ((reorderLayers 1 0 twoLayerState).layers.map Layer.zIndex).Nodup := by
  apply stackOrder_nodup_of_reachableA
  have s1 := StepA.add (mkLayer 1) initialState (by decide)
  have s2 := StepA.add (mkLayer 2) (addLayer (mkLayer 1) initialState) (by decide)
  have s3 := StepA.reorder 1 0 (addLayer (mkLayer 2) (addLayer (mkLayer 1) initialState))
    (by decide) (by decide)
  exact Relation.ReflTransGen.refl |>.tail s1 |>.tail s2 |>.tail s3

/- ### C6: selection validity -/

/-- C6 counterexample: `selectLayer` validates nothing, so a single operation
from the empty store yields a dangling selection — `selectedLayerId = some 5`
while the collection is empty. -/
theorem selection_dangling_counterexample :
    Reachable (selectLayer (some 5) initialState) ∧
    (selectLayer (some 5) initialState).selectedLayerId = some 5 ∧
    (selectLayer (some 5) initialState).layers = [] :=
  ⟨Relation.ReflTransGen.single (Step.select (some 5) initialState), rfl, rfl⟩

/-- One transition of the store restricted to callers that pass `selectLayer`
only `null` or a currently-present id, and `updateLayer` patches that do not
rename ids (as the page's callers do). -/
inductive StepS : EditorState → EditorState → Prop where
  | add (layer : Layer) (st : EditorState)
      (hfresh : ∀ l ∈ st.layers, l.id ≠ layer.id) :
      StepS st (addLayer layer st)
  | update (id : Int) (updates : LayerPatch) (st : EditorState)
      (hid : updates.id = none) :
      StepS st (updateLayer id updates st)
  | select (id : Option Int) (st : EditorState)
      (hvalid : id = none ∨ ∃ l ∈ st.layers, some l.id = id) :
      StepS st (selectLayer id st)
  | reorder (startIndex endIndex : Nat) (st : EditorState)
      (hs : startIndex < st.layers.length) (he : endIndex < st.layers.length) :
      StepS st (reorderLayers startIndex endIndex st)
  | delete (st : EditorState) :
      StepS st (deleteSelectedLayer st)

/-- States reachable from the empty store when `selectLayer` is only called
with valid ids and patches do not rename ids. -/
def ReachableS (st : EditorState) : Prop :=
  Relation.ReflTransGen StepS initialState st

/-- The selection-validity invariant: the selection is `null` or the id of a
present layer. -/
def SelInv (st : EditorState) : Prop :=
  ∀ n : Int, st.selectedLayerId = some n → ∃ l ∈ st.layers, l.id = n

/-- Every step of the restricted relation preserves selection validity. -/
theorem stepS_preserves_SelInv (s t : EditorState) (hstep : StepS s t) (ih : SelInv s) :
    SelInv t := by
  cases hstep with
  | add layer _ hfresh =>
    intro n hn
    obtain ⟨l, hl, hid⟩ := ih n hn
    exact ⟨l, List.mem_cons_of_mem _ hl, hid⟩
  | update id updates _ hid0 =>
    intro n hn
    obtain ⟨l, hl, hlid⟩ := ih n hn
    refine ⟨if l.id = id then applyPatch updates l else l, ?_, ?_⟩
    · exact List.mem_map_of_mem _ hl
    · by_cases hcase : l.id = id
      · rw [if_pos hcase]
        show (applyPatch updates l).id = n
        simp only [applyPatch, hid0, Option.getD_none]
        exact hlid
      · rw [if_neg hcase]
        exact hlid
  | select id _ hvalid =>
    intro n hn
    rcases hvalid with hnone | ⟨l, hl, hlid⟩
    · subst hnone; cases hn
    · refine ⟨l, hl, ?_⟩
      have hsome : some l.id = some n := hlid.trans hn
      injection hsome
  | reorder startIndex endIndex _ hs he =>
    intro n hn
    obtain ⟨l, hl, hlid⟩ := ih n hn
    have hmem : n ∈ (reorderLayers startIndex endIndex s).layers.map Layer.id := by
      have hperm := (moveItem_perm s.layers startIndex endIndex hs he).map Layer.id
      have heq : (reorderLayers startIndex endIndex s).layers.map Layer.id =
          (moveItem s.layers startIndex endIndex).map Layer.id := map_id_renumber _
      rw [heq]
      exact hperm.mem_iff.mpr (List.mem_map.mpr ⟨l, hl, hlid⟩)
    obtain ⟨l2, hl2, hl2id⟩ := List.mem_map.mp hmem
    exact ⟨l2, hl2, hl2id⟩
  | delete =>
    intro n hn
    simp [deleteSelectedLayer] at hn

/-- C6 (amended): in every state reachable from the empty store by the five
operations, provided `selectLayer` is only passed `null` or a present id and
update patches do not rename ids, the selection is `null` or the id of a
present layer.  (Unrestricted `selectLayer` breaks this, see the
counterexample.) -/
theorem selection_valid_of_reachableS (st : EditorState) (h : ReachableS st) :
    ∀ n : Int, st.selectedLayerId = some n → ∃ l ∈ st.layers, l.id = n := by
  induction h with
  | refl => intro n hn; simp [initialState] at hn
  | tail hsteps hstep ih => exact stepS_preserves_SelInv _ _ hstep ih

/-- Witness for the amended C6: after adding layer 1 and selecting it, id 1 is
among the collection's ids. -/
theorem selection_valid_witness :
    (1 : Int) ∈ (selectLayer (some 1) (addLayer (mkLayer 1) initialState)).layers.map Layer.id := by
  have hreach : ReachableS (selectLayer (some 1) (addLayer (mkLayer 1) initialState)) := by
    have s1 := StepS.add (mkLayer 1) initialState (by decide)
    have s2 := StepS.select (some 1) (addLayer (mkLayer 1) initialState)
      (Or.inr ⟨{ mkLayer 1 with zIndex := 0 }, by decide, by decide⟩)
    exact Relation.ReflTransGen.refl |>.tail s1 |>.tail s2
  obtain ⟨l, hl, hid⟩ :=
    selection_valid_of_reachableS (selectLayer (some 1) (addLayer (mkLayer 1) initialState))
      hreach 1 rfl
  exact List.mem_map.mpr ⟨l, hl, hid⟩

/- ### C8: the generation relay -/

/-- C8 counterexample: with the key present in the environment but empty
(`FAL_AI_API_KEY=`), the claim's "key present implies exactly one outbound
call" fails — the JS truthiness guard `if (!apiKey)` also takes the error
branch on the empty string, so no call is made. -/
theorem relay_empty_key_counterexample :
    (POST (some "") "a manga panel" "square_hd" (fun _ => "data")).calls = [] ∧
    (POST (some "") "a manga panel" "square_hd" (fun _ => "data")).body =
      ResponseBody.errorMsg "API key not found" ∧
    (POST (some "") "a manga panel" "square_hd" (fun _ => "data")).status = 500 :=
  ⟨rfl, rfl, rfl⟩

/-- C8 (amended): when the key is absent or empty, the relay responds with the
JSON error body `API key not found` and status 500 and makes no outbound
call; when the key is present and non-empty it makes exactly one outbound
call carrying the prompt and the size, and passes the provider's data through
with status 200. -/
theorem relay_key_spec (apiKey : Option String) (prompt size : String)
    (provider : OutboundCall → String) :
    ((apiKey = none ∨ apiKey = some "") →
      (POST apiKey prompt size provider).calls = [] ∧
      (POST apiKey prompt size provider).body =
        ResponseBody.errorMsg "API key not found" ∧
      (POST apiKey prompt size provider).status = 500) ∧
    (∀ k : String, apiKey = some k → k ≠ "" →
      (POST apiKey prompt size provider).calls =
        [{ url := "https://fal.run/fal-ai/fast-lightning-sdxl"
           authorization := "Key " ++ k
           prompt := prompt
           image_size := size }] ∧
      (POST apiKey prompt size provider).body =
        ResponseBody.passthrough (provider
          { url := "https://fal.run/fal-ai/fast-lightning-sdxl"
            authorization := "Key " ++ k
            prompt := prompt
            image_size := size }) ∧
      (POST apiKey prompt size provider).status = 200) := by
  constructor
  · rintro (rfl | rfl)
    · exact ⟨rfl, rfl, rfl⟩
    · exact ⟨rfl, rfl, rfl⟩
  · rintro k rfl hne
    simp [POST, hne]

/-- Witness for the amended C8 at a concrete non-empty key. -/
theorem relay_key_spec_witness :
    (POST (some "fal-secret") "a manga panel" "square_hd" (fun _ => "data")).calls =
      [{ url := "https://fal.run/fal-ai/fast-lightning-sdxl"
         authorization := "Key " ++ "fal-secret"
         prompt := "a manga panel"
         image_size := "square_hd" }] ∧
    (POST (some "fal-secret") "a manga panel" "square_hd" (fun _ => "data")).status = 200 := by
  have h := (relay_key_spec (some "fal-secret") "a manga panel" "square_hd"
    (fun _ => "data")).2 "fal-secret" rfl (by decide)
  exact ⟨h.1, h.2.2⟩
